import Mathlib

/-!
Shallow embedding of the rebuilderd coordinator API (src/daemon/src/api.rs)
and the worker-side rebuild pipeline (src/worker/src/rebuild.rs).

The daemon's database rows (`models::Package`, `models::Queued`,
`models::Worker`) are embedded as Lean structures, the database itself as a
`DbState` record, and each HTTP handler from api.rs as an explicit state
transformer `... → DbState → Resp × DbState`.  Bodies that live in modules of
the repository not present under src/ (models.rs, auth.rs, sync.rs) are
modelled from the spec and marked as such in their doc comments.
-/

/-- A package release row (daemon `models::Package`).  Fields are the ones the
handlers in api.rs read: identity (name, version, distro, suite,
architecture), the row id, and the raw status string compared by
`opt_filter` in `list_pkgs`. -/
structure Package where
  id : Nat
  name : String
  version : String
  distro : String
  suite : String
  architecture : String
  status : String
deriving Repr, DecidableEq

/-- A queue row (daemon `models::Queued`): reference to a package, version
snapshot, enqueue timestamp, optional lease holder and last-ping. -/
structure Queued where
  id : Nat
  package_id : Nat
  version : String
  queued_at : Nat
  worker_id : Option Nat
  last_ping : Option Nat
deriving Repr, DecidableEq

/-- A worker registry row (daemon `models::Worker`): credential key, peer
address, heartbeat, online flag and free-text activity label. -/
structure Worker where
  id : Nat
  key : String
  addr : String
  last_ping : Nat
  online : Bool
  status : Option String
deriving Repr, DecidableEq

/-- The coordinator's persistent state: package catalog, dispatch queue and
worker registry, plus fresh-id counters for inserts. -/
structure DbState where
  packages : List Package
  queue : List Queued
  workers : List Worker
  nextWorkerId : Nat
  nextQueuedId : Nat
deriving Repr, DecidableEq

/-- A queue item enriched with its package, as returned to workers
(`item.package.name` is read in `pop_queue`). -/
structure QueueItemApi where
  id : Nat
  package : Package
  version : String
  queued_at : Nat
deriving Repr, DecidableEq

/-- `JobAssignment`: what a polling worker receives. -/
inductive JobAssignment where
  | Nothing : JobAssignment
  | Rebuild : QueueItemApi → JobAssignment
deriving Repr, DecidableEq

/-! ## Core queue operations (DispatchQueue) -/

/-- The oldest unassigned element of a queue: among rows with no lease
holder, one with minimal `queued_at` (the `ORDER BY queued_at ASC` row
selected by `pop_next`). -/
def oldestUnassigned : List Queued → Option Queued
  | [] => none
  | x :: xs =>
    match oldestUnassigned xs with
    | none => if x.worker_id = none then some x else none
    | some y =>
      if x.worker_id = none then
        if x.queued_at ≤ y.queued_at then some x else some y
      else some y

/-- The per-row effect of a claim: the row with id `t` gets holder `w` and
ping `n`; every other row is unchanged. -/
def claimItem (t w n : Nat) (i : Queued) : Queued :=
  if i.id = t then { i with worker_id := some w, last_ping := some n } else i

/-- Modelled from the spec: `models::Queued::pop_next` (called from
`pop_queue`, api.rs:185; body in the daemon's models.rs, not under src/).
"atomically selects the oldest unassigned item, sets holder=workerId and
ping=now, and returns it; returns Nothing if no unassigned item exists."
The atomic conditional update is embedded as a pure step on the queue
state. -/
def Queued.pop_next (w now : Nat) (q : List Queued) : Option Queued × List Queued :=
  match oldestUnassigned q with
  | none => (none, q)
  | some it =>
      (some { it with worker_id := some w, last_ping := some now },
       q.map (claimItem it.id w now))

/-- Number of unassigned rows in a queue. -/
def countUnassigned (q : List Queued) : Nat :=
  q.countP (fun i => i.worker_id.isNone)

/-- A sequence of `pop_next` calls, one per worker id in `ws`, threading the
queue state: any interleaving of the atomic claims is one such sequence. -/
def popMany (now : Nat) : List Nat → List Queued → List (Option Queued) × List Queued
  | [], q => ([], q)
  | w :: ws, q =>
    let p := Queued.pop_next w now q
    let rest := popMany now ws p.2
    (p.1 :: rest.1, rest.2)

/-- Modelled from the spec: `models::Queued::free_stale_jobs` (called from
`pop_queue`/`list_queue`; body in models.rs, not under src/).  "clears
holder+ping on every QueueItem whose holder is non-null and whose last-ping
is older than leaseTimeout (or was claimed but never pinged past the
timeout)". -/
def Queued.free_stale_jobs (timeout now : Nat) (q : List Queued) : List Queued :=
  q.map (fun i =>
    if i.worker_id.isSome && (match i.last_ping with
        | some p => decide (p + timeout ≤ now)
        | none => true) then
      { i with worker_id := none, last_ping := none }
    else i)

/-- Modelled from the spec: `models::Queued::get_id` (api.rs:294, 324; body in
models.rs, not under src/): fetch a queue row by id, an error if absent. -/
def Queued.get_id (i : Nat) (q : List Queued) : Except String Queued :=
  match q.find? (fun x => x.id == i) with
  | some x => .ok x
  | none => .error "queue item not found"

/-- Modelled from the spec: `models::Queued::ping_job` (api.rs:302; body in
models.rs, not under src/): "on success refreshes last-ping to now". -/
def Queued.ping_job (i now : Nat) (q : List Queued) : List Queued :=
  q.map (fun x => if x.id = i then { x with last_ping := some now } else x)

/-- Modelled from the spec: `models::Queued::delete` (api.rs:328; body in
models.rs, not under src/): "deletes the item". -/
def Queued.delete (i : Nat) (q : List Queued) : List Queued :=
  q.filter (fun x => x.id ≠ i)

/-- Modelled from the spec: `models::Queued::drop_for_pkgs` (api.rs:222; body
in models.rs, not under src/): "deletes all QueueItems referencing any of the
given package ids, regardless of lease state". -/
def Queued.drop_for_pkgs (ids : List Nat) (q : List Queued) : List Queued :=
  q.filter (fun x => x.package_id ∉ ids)

/-- Modelled from the spec: `models::NewQueued::new(pkg.id, version)` followed
by `insert` (api.rs:161-163): appends a new unassigned QueueItem; no
deduplication. -/
def NewQueued.insert (pkgId : Nat) (version : String) (now : Nat) (st : DbState) : DbState :=
  { st with
    queue := st.queue ++
      [{ id := st.nextQueuedId, package_id := pkgId, version := version,
         queued_at := now, worker_id := none, last_ping := none }],
    nextQueuedId := st.nextQueuedId + 1 }

/-! ## Package catalog operations -/

/-- Modelled from the spec: `models::Package::get_id` (api.rs:325; body in
models.rs, not under src/): fetch a package row by id. -/
def Package.get_id (i : Nat) (ps : List Package) : Except String Package :=
  match ps.find? (fun p => p.id == i) with
  | some p => .ok p
  | none => .error "package not found"

/-- Modelled from the spec: `models::Package::get_by` (api.rs:155, 217; body
in models.rs, not under src/): packages matching name, distro, suite and,
when given, architecture. -/
def Package.get_by (name distro suite : String) (arch : Option String)
    (ps : List Package) : List Package :=
  ps.filter (fun p =>
    p.name == name && p.distro == distro && p.suite == suite &&
      (match arch with | some a => p.architecture == a | none => true))

/-- Modelled from the spec: `models::Package::update_status_safely`
(api.rs:327; body in models.rs, not under src/): "applies the report to the
referenced PackageRelease's status".  It receives only the rebuild result,
so it stores the reported status on the row with the given package id. -/
def Package.update_status_safely (i : Nat) (newStatus : String)
    (ps : List Package) : List Package :=
  ps.map (fun p => if p.id = i then { p with status := newStatus } else p)

/-- Modelled from the spec:
`models::Package::reset_status_for_requeued_list` (api.rs:273; body in
models.rs, not under src/): "clears matched packages' status to Unknown". -/
def Package.reset_status_for_requeued_list (ids : List Nat)
    (ps : List Package) : List Package :=
  ps.map (fun p => if p.id ∈ ids then { p with status := "UNKWN" } else p)

/-! ## Worker registry operations -/

/-- Modelled from the spec: `models::Worker::get` (api.rs:130; body in
models.rs, not under src/): look up a worker row by credential key. -/
def Worker.get (key : String) (st : DbState) : Option Worker :=
  st.workers.find? (fun w => w.key == key)

/-- Modelled from the spec: `models::Worker::update` (api.rs:198, 304, 331;
body in models.rs, not under src/): persist the in-memory worker row over
the registry row with the same id. -/
def Worker.update (w : Worker) (st : DbState) : DbState :=
  { st with workers := st.workers.map (fun x => if x.id = w.id then w else x) }

/-- Modelled from the spec: `models::NewWorker::new(key, ip, None)` followed
by `insert` (api.rs:134-135; body in models.rs, not under src/): a worker
"created on first authenticated contact with an unseen credential"
(status=none, online=true), stamped with the current heartbeat. -/
def NewWorker.insert (key addr : String) (now : Nat) (st : DbState) : DbState :=
  { st with
    workers := st.workers ++
      [{ id := st.nextWorkerId, key := key, addr := addr, last_ping := now,
         online := true, status := none }],
    nextWorkerId := st.nextWorkerId + 1 }

/-- Modelled from the spec: `models::Worker::mark_stale_workers_offline`
(api.rs:37; body in models.rs, not under src/): "sets online=false for every
Worker whose last-ping exceeds offlineTimeout". -/
def Worker.mark_stale_workers_offline (timeout now : Nat) (st : DbState) : DbState :=
  { st with workers := st.workers.map (fun w =>
      if w.last_ping + timeout ≤ now then { w with online := false } else w) }

/-! ## Requests, configuration, authentication -/

/-- Daemon configuration: the two role secrets (spec section 4.3) and the
timeouts (configuration values per spec section 5). -/
structure Config where
  adminSecret : String
  workerSecret : String
  leaseTimeout : Nat
  offlineTimeout : Nat
deriving Repr, DecidableEq

/-- An HTTP request as the handlers see it: the admin-role secret header,
the worker-role secret header, the worker identity key header
(WORKER_KEY_HEADER, api.rs:124) and the peer address (api.rs:127).  A `none`
field is an absent header. -/
structure Request where
  adminAuth : Option String
  workerAuth : Option String
  workerKey : Option String
  peerAddr : Option String
deriving Repr, DecidableEq

/-- Modelled from the spec: `auth::admin` (auth.rs, not under src/): "A
request's role is determined by comparing a header value against the
configured secret for that role." -/
def auth.admin (cfg : Config) (req : Request) : Bool :=
  req.adminAuth == some cfg.adminSecret

/-- Modelled from the spec: `auth::worker` (auth.rs, not under src/): the
worker-role counterpart of `auth.admin`; "Roles are independent secrets". -/
def auth.worker (cfg : Config) (req : Request) : Bool :=
  req.workerAuth == some cfg.workerSecret

/-- A handler response: 200 with a payload, 403 Forbidden (the `forbidden()`
helper, api.rs:13), or an internal error from a `bail!`/`?`. -/
inductive Resp where
  | ok : Resp
  | okJob : JobAssignment → Resp
  | okWorkers : List Worker → Resp
  | okPkgs : List Package → Resp
  | forbidden : Resp
  | err : String → Resp
deriving Repr, DecidableEq

/-- `get_worker_from_request` (api.rs:123-138): read the worker key header
and peer address; if a worker row with that key exists, return it with its
heartbeat bumped (spec: "updated on every heartbeat-bearing request"; the
bump is persisted only by a later `Worker.update`); otherwise insert a fresh
row and look it up again.  The recursion is unfolded once: after the insert
the key is present. -/
def get_worker_from_request (req : Request) (now : Nat) (st : DbState) :
    Except String (Worker × DbState) :=
  match req.workerKey with
  | none => .error "Failed to get worker key"
  | some key =>
    match req.peerAddr with
    | none => .error "Can't determine client ip"
    | some ci =>
      match Worker.get key st with
      | some w => .ok ({ w with last_ping := now }, st)
      | none =>
        let st' := NewWorker.insert key ci now st
        match Worker.get key st' with
        | some w => .ok ({ w with last_ping := now }, st')
        | none => .error "worker insert failed"

/-! ## Request payloads -/

/-- Query of `list_pkgs` (`ListPkgs`): each field an optional exact-match
filter. -/
structure ListPkgs where
  name : Option String
  status : Option String
  distro : Option String
  suite : Option String
  architecture : Option String
deriving Repr, DecidableEq

/-- Payload of `push_queue` (`PushQueue`). -/
structure PushQueue where
  name : String
  version : Option String
  distro : String
  suite : String
  architecture : Option String
deriving Repr, DecidableEq

/-- Payload of `drop_from_queue` (`DropQueueItem`). -/
structure DropQueueItem where
  name : String
  distro : String
  suite : String
  architecture : Option String
deriving Repr, DecidableEq

/-- Payload of `requeue_pkg` (`RequeueQuery`): the `list_pkgs` filter shape
plus a reset flag. -/
structure RequeueQuery where
  name : Option String
  status : Option String
  distro : Option String
  suite : Option String
  architecture : Option String
  reset : Bool
deriving Repr, DecidableEq

/-- Payload of `report_build` (`BuildReport`): the queue item id and the
reported rebuild status string. -/
structure BuildReport where
  queueId : Nat
  rebuildStatus : String
deriving Repr, DecidableEq

/-- Modelled from the spec: the catalog import payload consumed by
`sync_work` (`SuiteImport`; format is an excluded external collaborator):
the package releases to upsert. -/
structure SuiteImport where
  pkgs : List Package
deriving Repr, DecidableEq

/-- Modelled from the spec: `sync::run` (api.rs:57; body in sync.rs, not
under src/): the importer upserts package releases on identity
(name, version, distro, suite, architecture); status is not touched for
existing rows. -/
def sync.run (imp : SuiteImport) (st : DbState) : DbState :=
  { st with packages := imp.pkgs.foldl (fun ps p =>
      if ps.any (fun q => q.name == p.name && q.version == p.version &&
          q.distro == p.distro && q.suite == p.suite &&
          q.architecture == p.architecture) then ps
      else ps ++ [p]) st.packages }

/-! ## Handlers (api.rs) -/

/-- `opt_filter` (api.rs:62-69): `true` (skip the row) exactly when a filter
is provided and differs from the row's field. -/
def opt_filter (this : String) (filter : Option String) : Bool :=
  match filter with
  | some f => this != f
  | none => false

/-- `list_pkgs` (api.rs:71-100): keep every package no provided filter
rejects.  The per-row conversion `into_api_item` only reshapes the row for
the wire, so the handler is embedded as returning the selected rows. -/
def list_pkgs (query : ListPkgs) (pkgs : List Package) : List Package :=
  pkgs.filter (fun pkg =>
    !(opt_filter pkg.name query.name) &&
    !(opt_filter pkg.status query.status) &&
    !(opt_filter pkg.distro query.distro) &&
    !(opt_filter pkg.suite query.suite) &&
    !(opt_filter pkg.architecture query.architecture))

/-- `list_workers` (api.rs:26-40). -/
def list_workers (cfg : Config) (req : Request) (st : DbState) (now : Nat) :
    Resp × DbState :=
  if auth.admin cfg req then
    let st' := Worker.mark_stale_workers_offline cfg.offlineTimeout now st
    (.okWorkers st'.workers, st')
  else (.forbidden, st)

/-- `sync_work` (api.rs:44-60). -/
def sync_work (cfg : Config) (req : Request) (imp : SuiteImport) (st : DbState) :
    Resp × DbState :=
  if auth.admin cfg req then
    (.okJob .Nothing, sync.run imp st)
  else (.forbidden, st)

/-- `push_queue` (api.rs:140-167): for each package matching the filter,
append a queue item whose version is the override if provided, else the
catalog version. -/
def push_queue (cfg : Config) (req : Request) (query : PushQueue) (st : DbState)
    (now : Nat) : Resp × DbState :=
  if auth.admin cfg req then
    let pkgs := Package.get_by query.name query.distro query.suite
      query.architecture st.packages
    let st' := pkgs.foldl (fun s p =>
      NewQueued.insert p.id (query.version.getD p.version) now s) st
    (.ok, st')
  else (.forbidden, st)

/-- `drop_from_queue` (api.rs:203-225). -/
def drop_from_queue (cfg : Config) (req : Request) (query : DropQueueItem)
    (st : DbState) : Resp × DbState :=
  if auth.admin cfg req then
    let pkgs := Package.get_by query.name query.distro query.suite
      query.architecture st.packages
    (.ok, { st with queue := Queued.drop_for_pkgs (pkgs.map Package.id) st.queue })
  else (.forbidden, st)

/-- `requeue_pkg` (api.rs:227-277): requeue every package matching the
filter; when `reset` is set, also clear the matched packages' status. -/
def requeue_pkg (cfg : Config) (req : Request) (query : RequeueQuery)
    (st : DbState) (now : Nat) : Resp × DbState :=
  if auth.admin cfg req then
    let pkgs := st.packages.filter (fun pkg =>
      !(opt_filter pkg.name query.name) &&
      !(opt_filter pkg.status query.status) &&
      !(opt_filter pkg.distro query.distro) &&
      !(opt_filter pkg.suite query.suite) &&
      !(opt_filter pkg.architecture query.architecture))
    let st' := pkgs.foldl (fun s p => NewQueued.insert p.id p.version now s) st
    let reset := Package.reset_status_for_requeued_list (pkgs.map Package.id) st'.packages
    let st'' := if query.reset then { st' with packages := reset } else st'
    (.ok, st'')
  else (.forbidden, st)

/-- `pop_queue` (api.rs:169-201): authenticate, resolve/heartbeat the
worker, free stale leases, pop the oldest unassigned item (claiming it for
this worker), set the worker's activity label, and persist the worker
row. -/
def pop_queue (cfg : Config) (req : Request) (st : DbState) (now : Nat) :
    Resp × DbState :=
  if auth.worker cfg req then
    match get_worker_from_request req now st with
    | .error e => (.err e, st)
    | .ok (w, st1) =>
      let st2 := { st1 with
        queue := Queued.free_stale_jobs cfg.leaseTimeout now st1.queue }
      let p := Queued.pop_next w.id now st2.queue
      let st3 := { st2 with queue := p.2 }
      match p.1 with
      | some it =>
        match Package.get_id it.package_id st3.packages with
        | .error e => (.err e, st3)
        | .ok pkg =>
          let apiItem : QueueItemApi :=
            { id := it.id, package := pkg, version := it.version,
              queued_at := it.queued_at }
          let label := "working hard on " ++ pkg.name ++ " " ++ pkg.version
          let w' := { w with status := some label }
          (.okJob (.Rebuild apiItem), Worker.update w' st3)
      | none =>
        let w' := { w with status := none }
        (.okJob .Nothing, Worker.update w' st3)
  else (.forbidden, st)

/-- `ping_build` (api.rs:279-308): authenticate, resolve/heartbeat the
worker, fetch the queue item, reject when the caller is not the current
holder, else refresh the item's ping and persist the worker row. -/
def ping_build (cfg : Config) (req : Request) (itemId : Nat) (st : DbState)
    (now : Nat) : Resp × DbState :=
  if auth.worker cfg req then
    match get_worker_from_request req now st with
    | .error e => (.err e, st)
    | .ok (w, st1) =>
      match Queued.get_id itemId st1.queue with
      | .error e => (.err e, st1)
      | .ok item =>
        if item.worker_id ≠ some w.id then
          (.err "Trying to write to item we didn't assign", st1)
        else
          let st2 := { st1 with queue := Queued.ping_job item.id now st1.queue }
          (.ok, Worker.update w st2)
  else (.forbidden, st)

/-- `report_build` (api.rs:310-334): authenticate, resolve/heartbeat the
worker, fetch the queue item and its package, apply the reported status,
delete the item, clear the worker's activity label and persist the worker
row.  The handler performs no holder check before applying the report. -/
def report_build (cfg : Config) (req : Request) (report : BuildReport)
    (st : DbState) (now : Nat) : Resp × DbState :=
  if auth.worker cfg req then
    match get_worker_from_request req now st with
    | .error e => (.err e, st)
    | .ok (w, st1) =>
      match Queued.get_id report.queueId st1.queue with
      | .error e => (.err e, st1)
      | .ok item =>
        match Package.get_id item.package_id st1.packages with
        | .error e => (.err e, st1)
        | .ok pkg =>
          let st2 := { st1 with
            packages := Package.update_status_safely pkg.id report.rebuildStatus
              st1.packages }
          let st3 := { st2 with queue := Queued.delete item.id st2.queue }
          let w' := { w with status := none }
          (.ok, Worker.update w' st3)
  else (.forbidden, st)

/-! ## Worker-side rebuild pipeline (src/worker/src/rebuild.rs)

The pipeline's interactions with the outside world (URL parsing by the url
crate, HTTP download, filesystem probes, the subprocess exit status) are
inputs collected in a `RebuildEnv`; the pipeline itself is the control flow
of `rebuild`.  Each run also yields the trace of external actions it
performed, so "no download / no subprocess / no output check happened" is a
statement about the trace. -/

/-- The distro enumeration (`rebuilderd_common::Distro`). -/
inductive Distro where
  | Archlinux : Distro
  | Debian : Distro
deriving Repr, DecidableEq

/-- A parsed URL, as `rebuild` consumes it: `path_segments()` is `none` for
a URL that cannot be a base, otherwise the list of path segments. -/
structure Url where
  path_segments : Option (List String)
deriving Repr, DecidableEq

/-- The external world a `rebuild` call runs against. -/
structure RebuildEnv where
  /-- whether creating the scoped temporary workspace succeeds (rebuild.rs:9) -/
  tmpOk : Bool
  /-- result of `url.parse::<Url>()` (rebuild.rs:11) -/
  parsed : Option Url
  /-- whether the blocking HTTP download succeeds (rebuild.rs:23) -/
  downloadOk : Bool
  /-- filesystem probe used to resolve the rebuilder script (rebuild.rs:70) -/
  binExists : String → Bool
  /-- exit status of the rebuilder subprocess, `status.success()` (rebuild.rs:77) -/
  scriptStatusSuccess : Bool
  /-- filesystem probe for the output artifact (rebuild.rs:34) -/
  outputExists : String → Bool

/-- External actions a `rebuild` call can perform, in order. -/
inductive RebuildEvent where
  | download : RebuildEvent
  | spawn : RebuildEvent
  | checkOutput : RebuildEvent
deriving Repr, DecidableEq

/-- The static distro → script-name table (rebuild.rs:61-64). -/
def scriptName : Distro → String
  | .Archlinux => "rebuilder-archlinux.sh"
  | .Debian => "rebuilder-debian.sh"

/-- The ordered installation prefixes probed for the script (rebuild.rs:66). -/
def scriptPrefixes : List String :=
  [".", "/usr/libexec/rebuilderd", "/usr/local/libexec/rebuilderd"]

/-- `spawn_script` (rebuild.rs:59-82): probe the prefixes in order; run the
first existing script and propagate its exit status; error if none exists
(no subprocess spawned). -/
def spawn_script (env : RebuildEnv) (distro : Distro) :
    Except String Bool × List RebuildEvent :=
  match scriptPrefixes.find? (fun pre => env.binExists (pre ++ "/" ++ scriptName distro)) with
  | some _ => (.ok env.scriptStatusSuccess, [.spawn])
  | none => (.error "failed to find a rebuilder script", [])

/-- `rebuild` (rebuild.rs:8-41): workspace, URL parse, filename extraction,
download, script invocation, and — only on a successful exit status — the
output-artifact existence check. -/
def rebuild (env : RebuildEnv) (distro : Distro) :
    Except String Bool × List RebuildEvent :=
  if !env.tmpOk then (.error "failed to create tempdir", []) else
  match env.parsed with
  | none => (.error "Failed to parse input as url", [])
  | some url =>
    match url.path_segments with
    | none => (.error "Url doesn't seem to have a path", [])
    | some segs =>
      match segs.getLast? with
      | none => (.error "Failed to get filename from path", [])
      | some filename =>
        if filename = "" then (.error "Filename is empty", [])
        else if !env.downloadOk then
          (.error "Failed to download original package", [.download])
        else
          match spawn_script env distro with
          | (.error e, evs) => (.error e, .download :: evs)
          | (.ok false, evs) => (.ok false, .download :: evs)
          | (.ok true, evs) =>
            if env.outputExists ("./build/" ++ filename) then
              (.ok true, .download :: evs ++ [.checkOutput])
            else
              (.error "Rebuild script exited successfully but output package does not exist",
               .download :: evs ++ [.checkOutput])

/-! ## Concrete instances (used to instantiate the theorems below) -/

/-- A sample configuration. -/
def cfgEx : Config :=
  { adminSecret := "adm", workerSecret := "wrk", leaseTimeout := 100, offlineTimeout := 100 }

/-- A sample catalog row. -/
def pkgEx : Package :=
  { id := 1, name := "pkg", version := "1.0", distro := "debian", suite := "main",
    architecture := "amd64", status := "GOOD" }

/-- A queue item currently leased by worker 1. -/
def itemHeldByW1 : Queued :=
  { id := 1, package_id := 1, version := "1.0", queued_at := 0,
    worker_id := some 1, last_ping := some 5 }

/-- Registered worker 1 (credential "k1"). -/
def workerW1 : Worker :=
  { id := 1, key := "k1", addr := "ip1", last_ping := 5, online := true,
    status := some "busy" }

/-- Registered worker 2 (credential "k2"). -/
def workerW2 : Worker :=
  { id := 2, key := "k2", addr := "ip2", last_ping := 5, online := true,
    status := none }

/-- A state in which worker 1 holds the only queue item and both workers are
registered. -/
def stEx : DbState :=
  { packages := [pkgEx], queue := [itemHeldByW1], workers := [workerW1, workerW2],
    nextWorkerId := 3, nextQueuedId := 2 }

/-- A worker-authenticated request carrying worker 1's credential. -/
def reqW1 : Request :=
  { adminAuth := none, workerAuth := some "wrk", workerKey := some "k1",
    peerAddr := some "ip1" }

/-- A worker-authenticated request carrying worker 2's credential. -/
def reqW2 : Request :=
  { adminAuth := none, workerAuth := some "wrk", workerKey := some "k2",
    peerAddr := some "ip2" }

/-- A build report for queue item 1 reporting status BAD. -/
def reportEx : BuildReport := { queueId := 1, rebuildStatus := "BAD" }

/-- A request whose admin header is wrong and whose worker header is absent. -/
def reqBad : Request :=
  { adminAuth := some "nope", workerAuth := none, workerKey := some "k1",
    peerAddr := some "ip1" }

/-- A request holding a valid Worker secret but a wrong Admin secret: it must
still be rejected by every Admin-gated handler. -/
def reqWorkerOnly : Request :=
  { adminAuth := some "nope", workerAuth := some "wrk", workerKey := some "k1",
    peerAddr := some "ip1" }

/-- A request holding a valid Admin secret but no Worker secret: it must
still be rejected by every Worker-gated handler. -/
def reqAdminOnly : Request :=
  { adminAuth := some "adm", workerAuth := none, workerKey := some "k1",
    peerAddr := some "ip1" }

/-- A sample push payload. -/
def pushEx : PushQueue :=
  { name := "pkg", version := none, distro := "debian", suite := "main",
    architecture := none }

/-- A sample drop payload. -/
def dropEx : DropQueueItem :=
  { name := "pkg", distro := "debian", suite := "main", architecture := none }

/-- A sample requeue payload. -/
def requeueEx : RequeueQuery :=
  { name := none, status := none, distro := none, suite := none,
    architecture := none, reset := false }

/-- An empty import payload. -/
def importEx : SuiteImport := { pkgs := [] }

/-- A state in which credential "k2" is not yet registered. -/
def stUnseen : DbState :=
  { packages := [pkgEx], queue := [itemHeldByW1], workers := [workerW1],
    nextWorkerId := 2, nextQueuedId := 2 }

/-- A state with an empty queue. -/
def stEmptyQueue : DbState :=
  { packages := [pkgEx], queue := [], workers := [workerW1, workerW2],
    nextWorkerId := 3, nextQueuedId := 2 }

/-- A queue of two unassigned items. -/
def qTwo : List Queued :=
  [{ id := 1, package_id := 1, version := "1.0", queued_at := 0,
     worker_id := none, last_ping := none },
   { id := 2, package_id := 1, version := "1.0", queued_at := 1,
     worker_id := none, last_ping := none }]

/-- A URL with no path segments (cannot-be-a-base). -/
def urlNoPath : Url := { path_segments := none }

/-- An environment whose artifact URL has no path segments. -/
def envNoPath : RebuildEnv :=
  { tmpOk := true, parsed := some urlNoPath, downloadOk := true,
    binExists := fun _ => true, scriptStatusSuccess := true,
    outputExists := fun _ => true }

/-- A URL whose final path segment is "file.deb". -/
def urlFile : Url := { path_segments := some ["pool", "file.deb"] }

/-- An environment in which the rebuilder script exists in the first prefix
and exits with a failure status. -/
def envScriptFail : RebuildEnv :=
  { tmpOk := true, parsed := some urlFile, downloadOk := true,
    binExists := fun s => s == "./rebuilder-debian.sh",
    scriptStatusSuccess := false, outputExists := fun _ => false }

/-- An environment in which the rebuilder script exits successfully but the
output artifact is absent. -/
def envLyingScript : RebuildEnv :=
  { tmpOk := true, parsed := some urlFile, downloadOk := true,
    binExists := fun s => s == "./rebuilder-debian.sh",
    scriptStatusSuccess := true, outputExists := fun _ => false }

/-! ## Helper lemmas -/

lemma auth_admin_eq_false {cfg : Config} {req : Request}
    (h : req.adminAuth ≠ some cfg.adminSecret) : auth.admin cfg req = false := by
  unfold auth.admin
  exact beq_eq_false_iff_ne.mpr h

lemma auth_worker_eq_false {cfg : Config} {req : Request}
    (h : req.workerAuth ≠ some cfg.workerSecret) : auth.worker cfg req = false := by
  unfold auth.worker
  exact beq_eq_false_iff_ne.mpr h

lemma opt_filter_false_iff (s : String) (o : Option String) :
    (!(opt_filter s o)) = true ↔ (∀ v, o = some v → s = v) := by
  cases o with
  | none => simp [opt_filter]
  | some f => simp [opt_filter]

lemma find?_append_singleton {α : Type} (p : α → Bool) (l : List α) (x : α)
    (hl : l.find? p = none) (hx : p x = true) : (l ++ [x]).find? p = some x := by
  rw [List.find?_append, hl, Option.none_or, List.find?_cons_of_pos _ hx]

lemma Worker_get_insert_self (k ci : String) (now : Nat) (st : DbState)
    (h : Worker.get k st = none) :
    Worker.get k (NewWorker.insert k ci now st) =
      some { id := st.nextWorkerId, key := k, addr := ci, last_ping := now,
             online := true, status := none } := by
  unfold Worker.get at h ⊢
  unfold NewWorker.insert
  exact find?_append_singleton _ _ _ h (by simp)

lemma Queued.get_id_ok {i : Nat} {q : List Queued} {it : Queued}
    (h : Queued.get_id i q = .ok it) : it ∈ q ∧ it.id = i := by
  unfold Queued.get_id at h
  cases hf : q.find? (fun x => x.id == i) with
  | none => rw [hf] at h; cases h
  | some x =>
    rw [hf] at h
    cases h
    exact ⟨List.mem_of_find?_eq_some hf, by
      have := List.find?_some hf
      simpa using this⟩

/-! ## Claim theorems -/

/-- C8: a package appears in the `list_pkgs` result exactly when it is in the
catalog and, for each provided filter field, the package's field equals the
filter value; an absent filter matches every package. -/
theorem C8_list_pkgs_filter (query : ListPkgs) (pkgs : List Package) (p : Package) :
    p ∈ list_pkgs query pkgs ↔
      p ∈ pkgs ∧
      (∀ v, query.name = some v → p.name = v) ∧
      (∀ v, query.status = some v → p.status = v) ∧
      (∀ v, query.distro = some v → p.distro = v) ∧
      (∀ v, query.suite = some v → p.suite = v) ∧
      (∀ v, query.architecture = some v → p.architecture = v) := by
  unfold list_pkgs
  rw [List.mem_filter]
  simp only [Bool.and_eq_true, opt_filter_false_iff]
  tauto

/-- C7: every role-gated handler rejects a request whose credential header
for that handler's role is absent or differs from that role's configured
secret, with Forbidden and the state untouched: an Admin-secret mismatch
alone forces push, drop, requeue, list-workers and catalog sync to reject,
and a Worker-secret mismatch alone forces pop, ping and report to reject —
the roles are independent, so holding the other role's secret does not
help. -/
theorem C7_auth_forbidden (cfg : Config) (req : Request) (st : DbState) (now : Nat)
    (pq : PushQueue) (dq : DropQueueItem) (rq : RequeueQuery) (imp : SuiteImport)
    (rep : BuildReport) (itemId : Nat) :
    (req.adminAuth ≠ some cfg.adminSecret →
      push_queue cfg req pq st now = (.forbidden, st) ∧
      drop_from_queue cfg req dq st = (.forbidden, st) ∧
      requeue_pkg cfg req rq st now = (.forbidden, st) ∧
      list_workers cfg req st now = (.forbidden, st) ∧
      sync_work cfg req imp st = (.forbidden, st)) ∧
    (req.workerAuth ≠ some cfg.workerSecret →
      pop_queue cfg req st now = (.forbidden, st) ∧
      ping_build cfg req itemId st now = (.forbidden, st) ∧
      report_build cfg req rep st now = (.forbidden, st)) := by
  constructor
  · intro hadm
    have ha := auth_admin_eq_false hadm
    refine ⟨?_, ?_, ?_, ?_, ?_⟩ <;>
      simp [push_queue, drop_from_queue, requeue_pkg, list_workers, sync_work, ha]
  · intro hwrk
    have hw := auth_worker_eq_false hwrk
    refine ⟨?_, ?_, ?_⟩ <;>
      simp [pop_queue, ping_build, report_build, hw]

/-- Witness for C7 at two cross-role requests: a valid Worker secret with a
wrong Admin secret is rejected by the Admin-gated handlers, and a valid
Admin secret with no Worker secret is rejected by the Worker-gated
handlers. -/
theorem C7_auth_forbidden_witness :
    (reqWorkerOnly.adminAuth ≠ some cfgEx.adminSecret) ∧
    (reqAdminOnly.workerAuth ≠ some cfgEx.workerSecret) ∧
    (push_queue cfgEx reqWorkerOnly pushEx stEx 10 = (.forbidden, stEx) ∧
     drop_from_queue cfgEx reqWorkerOnly dropEx stEx = (.forbidden, stEx) ∧
     requeue_pkg cfgEx reqWorkerOnly requeueEx stEx 10 = (.forbidden, stEx) ∧
     list_workers cfgEx reqWorkerOnly stEx 10 = (.forbidden, stEx) ∧
     sync_work cfgEx reqWorkerOnly importEx stEx = (.forbidden, stEx)) ∧
    (pop_queue cfgEx reqAdminOnly stEx 10 = (.forbidden, stEx) ∧
     ping_build cfgEx reqAdminOnly 1 stEx 10 = (.forbidden, stEx) ∧
     report_build cfgEx reqAdminOnly reportEx stEx 10 = (.forbidden, stEx)) :=
  ⟨by decide, by decide,
   (C7_auth_forbidden cfgEx reqWorkerOnly stEx 10 pushEx dropEx requeueEx
     importEx reportEx 1).1 (by decide),
   (C7_auth_forbidden cfgEx reqAdminOnly stEx 10 pushEx dropEx requeueEx
     importEx reportEx 1).2 (by decide)⟩

/-- C1 (code bug): `report_build` performs no holder check.  In a state
where queue item 1 is held by worker 1, a report from distinct registered
worker 2 is accepted: the handler answers Ok, deletes the item and rewrites
the package's status, instead of rejecting with a lease mismatch. -/
theorem C1_report_build_no_holder_check :
    itemHeldByW1.worker_id = some workerW1.id ∧
    Worker.get "k2" stEx = some workerW2 ∧
    workerW2.id ≠ workerW1.id ∧
    (report_build cfgEx reqW2 reportEx stEx 10).1 = .ok ∧
    ((report_build cfgEx reqW2 reportEx stEx 10).2).queue = [] ∧
    ((report_build cfgEx reqW2 reportEx stEx 10).2).packages =
      [{ pkgEx with status := "BAD" }] := by
  refine ⟨rfl, rfl, by decide, rfl, rfl, rfl⟩

/-- C6: when the artifact URL has no path segments, or its final path
segment (the filename) is empty or absent, `rebuild` fails with an error and
its action trace is empty: no download and no subprocess invocation was
attempted. -/
theorem C6_rebuild_bad_url (env : RebuildEnv) (d : Distro) (u : Url)
    (hu : env.parsed = some u)
    (hbad : u.path_segments = none ∨
      ∃ segs, u.path_segments = some segs ∧
        (segs.getLast? = none ∨ segs.getLast? = some "")) :
    (∃ e, (rebuild env d).1 = Except.error e) ∧ (rebuild env d).2 = [] := by
  unfold rebuild
  cases htmp : env.tmpOk with
  | false => simp
  | true =>
    rcases hbad with hnone | ⟨segs, hsegs, hlast⟩
    · simp [hu, hnone]
    · rcases hlast with hl | hl
      · simp [hu, hsegs, hl]
      · simp [hu, hsegs, hl]

/-- Witness for C6 at a URL with no path segments. -/
theorem C6_rebuild_bad_url_witness :
    envNoPath.parsed = some urlNoPath ∧
    urlNoPath.path_segments = none ∧
    ((∃ e, (rebuild envNoPath .Debian).1 = Except.error e) ∧
     (rebuild envNoPath .Debian).2 = []) :=
  ⟨rfl, rfl, C6_rebuild_bad_url envNoPath .Debian urlNoPath rfl (Or.inl rfl)⟩

/-- C5: when the rebuilder subprocess exits with a failure status, `rebuild`
returns `false` at once: it is not an error, and the trace records the
download and the spawn but no output-artifact check. -/
theorem C5_rebuild_script_failure (env : RebuildEnv) (d : Distro) (u : Url)
    (segs : List String) (filename : String)
    (htmp : env.tmpOk = true) (hu : env.parsed = some u)
    (hsegs : u.path_segments = some segs) (hlast : segs.getLast? = some filename)
    (hne : filename ≠ "") (hdl : env.downloadOk = true)
    (hfind : (scriptPrefixes.find?
      (fun pre => env.binExists (pre ++ "/" ++ scriptName d))).isSome = true)
    (hfail : env.scriptStatusSuccess = false) :
    rebuild env d = (Except.ok false, [.download, .spawn]) ∧
    RebuildEvent.checkOutput ∉ (rebuild env d).2 := by
  obtain ⟨pre, hpre⟩ := Option.isSome_iff_exists.mp hfind
  have hr : rebuild env d = (Except.ok false, [.download, .spawn]) := by
    simp [rebuild, htmp, hu, hsegs, hlast, hne, hdl, spawn_script, hpre, hfail]
  refine ⟨hr, ?_⟩
  rw [hr]
  decide

/-- Witness for C5 at a concrete failing-script environment. -/
theorem C5_rebuild_script_failure_witness :
    envScriptFail.tmpOk = true ∧
    envScriptFail.parsed = some urlFile ∧
    urlFile.path_segments = some ["pool", "file.deb"] ∧
    ["pool", "file.deb"].getLast? = some "file.deb" ∧
    "file.deb" ≠ "" ∧
    envScriptFail.downloadOk = true ∧
    (scriptPrefixes.find?
      (fun pre => envScriptFail.binExists (pre ++ "/" ++ scriptName .Debian))).isSome = true ∧
    envScriptFail.scriptStatusSuccess = false ∧
    (rebuild envScriptFail .Debian = (Except.ok false, [.download, .spawn]) ∧
     RebuildEvent.checkOutput ∉ (rebuild envScriptFail .Debian).2) :=
  ⟨rfl, rfl, rfl, rfl, by decide, rfl, by decide, rfl,
   C5_rebuild_script_failure envScriptFail .Debian urlFile ["pool", "file.deb"]
     "file.deb" rfl rfl rfl rfl (by decide) rfl (by decide) rfl⟩

/-- C4: when the rebuilder subprocess exits successfully but the output
artifact is absent from the fixed relative output directory joined with the
downloaded filename, `rebuild` fails with an explicit error — an outcome
distinct from every `Except.ok` boolean result, in particular from the
`false` mismatch result. -/
theorem C4_rebuild_lying_script (env : RebuildEnv) (d : Distro) (u : Url)
    (segs : List String) (filename : String)
    (htmp : env.tmpOk = true) (hu : env.parsed = some u)
    (hsegs : u.path_segments = some segs) (hlast : segs.getLast? = some filename)
    (hne : filename ≠ "") (hdl : env.downloadOk = true)
    (hfind : (scriptPrefixes.find?
      (fun pre => env.binExists (pre ++ "/" ++ scriptName d))).isSome = true)
    (hsucc : env.scriptStatusSuccess = true)
    (hout : env.outputExists ("./build/" ++ filename) = false) :
    (rebuild env d).1 =
      Except.error "Rebuild script exited successfully but output package does not exist" ∧
    ∀ b, (rebuild env d).1 ≠ Except.ok b := by
  obtain ⟨pre, hpre⟩ := Option.isSome_iff_exists.mp hfind
  have hr : (rebuild env d).1 =
      Except.error "Rebuild script exited successfully but output package does not exist" := by
    simp [rebuild, htmp, hu, hsegs, hlast, hne, hdl, spawn_script, hpre, hsucc, hout]
  refine ⟨hr, ?_⟩
  intro b
  rw [hr]
  simp

/-- Witness for C4 at a concrete lying-script environment. -/
theorem C4_rebuild_lying_script_witness :
    envLyingScript.tmpOk = true ∧
    envLyingScript.parsed = some urlFile ∧
    urlFile.path_segments = some ["pool", "file.deb"] ∧
    ["pool", "file.deb"].getLast? = some "file.deb" ∧
    "file.deb" ≠ "" ∧
    envLyingScript.downloadOk = true ∧
    (scriptPrefixes.find?
      (fun pre => envLyingScript.binExists (pre ++ "/" ++ scriptName .Debian))).isSome = true ∧
    envLyingScript.scriptStatusSuccess = true ∧
    envLyingScript.outputExists ("./build/" ++ "file.deb") = false ∧
    ((rebuild envLyingScript .Debian).1 =
      Except.error "Rebuild script exited successfully but output package does not exist" ∧
     ∀ b, (rebuild envLyingScript .Debian).1 ≠ Except.ok b) :=
  ⟨rfl, rfl, rfl, rfl, by decide, rfl, by decide, rfl, by decide,
   C4_rebuild_lying_script envLyingScript .Debian urlFile ["pool", "file.deb"]
     "file.deb" rfl rfl rfl rfl (by decide) rfl (by decide) rfl (by decide)⟩

/-- C3: under an authenticated, registered caller and an existing queue
item, `ping_build` succeeds and refreshes the item's last-ping to now
exactly when the item's holder is the caller; for any other caller it fails
with the lease-mismatch rejection and the state — in particular the queue
item — is unchanged. -/
theorem C3_ping_build_lease_exclusivity (cfg : Config) (req : Request)
    (itemId now : Nat) (st : DbState) (k : String) (w : Worker) (it : Queued)
    (hauth : auth.worker cfg req = true)
    (hkey : req.workerKey = some k) (hpeer : req.peerAddr.isSome = true)
    (hw : Worker.get k st = some w)
    (hit : Queued.get_id itemId st.queue = .ok it) :
    (it.worker_id = some w.id →
      (ping_build cfg req itemId st now).1 = .ok ∧
      ((ping_build cfg req itemId st now).2).queue =
        Queued.ping_job it.id now st.queue ∧
      { it with last_ping := some now } ∈ ((ping_build cfg req itemId st now).2).queue) ∧
    (it.worker_id ≠ some w.id →
      (ping_build cfg req itemId st now).1 =
        .err "Trying to write to item we didn't assign" ∧
      (ping_build cfg req itemId st now).2 = st) := by
  obtain ⟨ci, hci⟩ := Option.isSome_iff_exists.mp hpeer
  have hmem := (Queued.get_id_ok hit).1
  have hrun : ping_build cfg req itemId st now =
      (if it.worker_id ≠ some w.id then
        (.err "Trying to write to item we didn't assign", st)
      else
        (.ok, Worker.update { w with last_ping := now }
          { st with queue := Queued.ping_job it.id now st.queue })) := by
    simp only [ping_build, get_worker_from_request, hauth, hkey, hci, hw, hit,
      if_true]
  constructor
  · intro hhold
    rw [hrun, if_neg (by simp [hhold])]
    refine ⟨rfl, rfl, ?_⟩
    show { it with last_ping := some now } ∈ Queued.ping_job it.id now st.queue
    unfold Queued.ping_job
    have : ({ it with last_ping := some now } : Queued) =
        (fun x => if x.id = it.id then { x with last_ping := some now } else x) it := by
      simp
    rw [this]
    exact List.mem_map_of_mem _ hmem
  · intro hmis
    rw [hrun, if_pos hmis]
    exact ⟨rfl, rfl⟩

/-- Witness for C3: worker 1 pings its own item (lease held), worker
workerW1 holds itemHeldByW1 in stEx. -/
theorem C3_ping_build_lease_exclusivity_witness :
    auth.worker cfgEx reqW1 = true ∧
    reqW1.workerKey = some "k1" ∧
    reqW1.peerAddr.isSome = true ∧
    Worker.get "k1" stEx = some workerW1 ∧
    Queued.get_id 1 stEx.queue = .ok itemHeldByW1 ∧
    ((itemHeldByW1.worker_id = some workerW1.id →
      (ping_build cfgEx reqW1 1 stEx 10).1 = .ok ∧
      ((ping_build cfgEx reqW1 1 stEx 10).2).queue =
        Queued.ping_job itemHeldByW1.id 10 stEx.queue ∧
      { itemHeldByW1 with last_ping := some 10 } ∈
        ((ping_build cfgEx reqW1 1 stEx 10).2).queue) ∧
    (itemHeldByW1.worker_id ≠ some workerW1.id →
      (ping_build cfgEx reqW1 1 stEx 10).1 =
        .err "Trying to write to item we didn't assign" ∧
      (ping_build cfgEx reqW1 1 stEx 10).2 = stEx)) :=
  ⟨by decide, rfl, rfl, rfl, rfl,
   C3_ping_build_lease_exclusivity cfgEx reqW1 1 10 stEx "k1" workerW1
     itemHeldByW1 (by decide) rfl rfl rfl rfl⟩

/-- C9: a ping from an unseen credential inserts a fresh Worker row before
the lease check, so even a lease-mismatch rejection mutates the worker
registry: the response is the rejection, yet the registry has gained the
new record. -/
theorem C9_ping_registers_unseen_worker (cfg : Config) (req : Request)
    (itemId now : Nat) (st : DbState) (k ci : String) (it : Queued)
    (hauth : auth.worker cfg req = true)
    (hkey : req.workerKey = some k) (hpeer : req.peerAddr = some ci)
    (hnew : Worker.get k st = none)
    (hit : Queued.get_id itemId st.queue = .ok it)
    (hmis : it.worker_id ≠ some st.nextWorkerId) :
    (ping_build cfg req itemId st now).1 =
      .err "Trying to write to item we didn't assign" ∧
    ((ping_build cfg req itemId st now).2).workers =
      st.workers ++ [{ id := st.nextWorkerId, key := k, addr := ci,
                       last_ping := now, online := true, status := none }] := by
  have hins := Worker_get_insert_self k ci now st hnew
  have hq : (NewWorker.insert k ci now st).queue = st.queue := rfl
  have hrun : ping_build cfg req itemId st now =
      (.err "Trying to write to item we didn't assign", NewWorker.insert k ci now st) := by
    simp only [ping_build, get_worker_from_request, hauth, hkey, hpeer, hnew,
      hins, if_true]
    rw [show (NewWorker.insert k ci now st).queue = st.queue from rfl]
    simp only [hit]
    rw [if_pos (by simpa using hmis)]
  rw [hrun]
  exact ⟨rfl, rfl⟩

/-- Witness for C9: worker credential "k2" is unseen in stUnseen, item 1 is
held by worker 1, and the fresh worker gets id 2. -/
theorem C9_ping_registers_unseen_worker_witness :
    auth.worker cfgEx reqW2 = true ∧
    reqW2.workerKey = some "k2" ∧
    reqW2.peerAddr = some "ip2" ∧
    Worker.get "k2" stUnseen = none ∧
    Queued.get_id 1 stUnseen.queue = .ok itemHeldByW1 ∧
    itemHeldByW1.worker_id ≠ some stUnseen.nextWorkerId ∧
    ((ping_build cfgEx reqW2 1 stUnseen 10).1 =
      .err "Trying to write to item we didn't assign" ∧
    ((ping_build cfgEx reqW2 1 stUnseen 10).2).workers =
      stUnseen.workers ++ [{ id := stUnseen.nextWorkerId, key := "k2", addr := "ip2",
                             last_ping := 10, online := true, status := none }]) :=
  ⟨by decide, rfl, rfl, rfl, rfl, by decide,
   C9_ping_registers_unseen_worker cfgEx reqW2 1 10 stUnseen "k2" "ip2"
     itemHeldByW1 (by decide) rfl rfl rfl rfl (by decide)⟩

lemma oldestUnassigned_cons_none {x : Queued} {xs : List Queued}
    (h : oldestUnassigned xs = none) :
    oldestUnassigned (x :: xs) = if x.worker_id = none then some x else none := by
  unfold oldestUnassigned
  rw [h]

lemma oldestUnassigned_cons_some {x : Queued} {xs : List Queued} {y : Queued}
    (h : oldestUnassigned xs = some y) :
    oldestUnassigned (x :: xs) =
      if x.worker_id = none then
        (if x.queued_at ≤ y.queued_at then some x else some y)
      else some y := by
  unfold oldestUnassigned
  rw [h]

lemma oldestUnassigned_eq_none_iff (q : List Queued) :
    oldestUnassigned q = none ↔ ∀ i ∈ q, i.worker_id ≠ none := by
  induction q with
  | nil => simp [oldestUnassigned]
  | cons x xs ih =>
    cases h : oldestUnassigned xs with
    | none =>
      have hxs := ih.mp h
      rw [oldestUnassigned_cons_none h]
      by_cases hx : x.worker_id = none
      · rw [if_pos hx]
        constructor
        · intro habs; cases habs
        · intro hall
          exact absurd hx (hall x (List.mem_cons_self x xs))
      · rw [if_neg hx]
        constructor
        · intro _ i hi
          rcases List.mem_cons.mp hi with rfl | hixs
          · exact hx
          · exact hxs i hixs
        · intro _; rfl
    | some y =>
      have hnxs : ¬ ∀ i ∈ xs, i.worker_id ≠ none := by
        intro hall
        rw [ih.mpr hall] at h
        cases h
      rw [oldestUnassigned_cons_some h]
      constructor
      · intro habs
        by_cases hx : x.worker_id = none
        · rw [if_pos hx] at habs
          split at habs <;> cases habs
        · rw [if_neg hx] at habs
          cases habs
      · intro hall
        exact absurd (fun i hi => hall i (List.mem_cons_of_mem x hi)) hnxs

lemma oldestUnassigned_some {q : List Queued} {y : Queued}
    (h : oldestUnassigned q = some y) :
    y ∈ q ∧ y.worker_id = none ∧
      ∀ j ∈ q, j.worker_id = none → y.queued_at ≤ j.queued_at := by
  induction q generalizing y with
  | nil => cases h
  | cons x xs ih =>
    cases hx : oldestUnassigned xs with
    | none =>
      rw [oldestUnassigned_cons_none hx] at h
      have hxs := (oldestUnassigned_eq_none_iff xs).mp hx
      by_cases hxu : x.worker_id = none
      · rw [if_pos hxu] at h
        cases h
        refine ⟨List.mem_cons_self _ _, hxu, ?_⟩
        intro j hj hju
        rcases List.mem_cons.mp hj with rfl | hjxs
        · exact le_refl _
        · exact absurd hju (hxs j hjxs)
      · rw [if_neg hxu] at h
        cases h
    | some z =>
      rw [oldestUnassigned_cons_some hx] at h
      obtain ⟨hzm, hzu, hzmin⟩ := ih hx
      by_cases hxu : x.worker_id = none
      · rw [if_pos hxu] at h
        by_cases hle : x.queued_at ≤ z.queued_at
        · rw [if_pos hle] at h
          cases h
          refine ⟨List.mem_cons_self _ _, hxu, ?_⟩
          intro j hj hju
          rcases List.mem_cons.mp hj with rfl | hjxs
          · exact le_refl _
          · exact le_trans hle (hzmin j hjxs hju)
        · rw [if_neg hle] at h
          cases h
          refine ⟨List.mem_cons_of_mem x hzm, hzu, ?_⟩
          intro j hj hju
          rcases List.mem_cons.mp hj with rfl | hjxs
          · exact le_of_lt (lt_of_not_le hle)
          · exact hzmin j hjxs hju
      · rw [if_neg hxu] at h
        cases h
        refine ⟨List.mem_cons_of_mem x hzm, hzu, ?_⟩
        intro j hj hju
        rcases List.mem_cons.mp hj with rfl | hjxs
        · exact absurd hju hxu
        · exact hzmin j hjxs hju

lemma free_stale_jobs_package_id {t n : Nat} {q : List Queued} {x : Queued}
    (h : x ∈ Queued.free_stale_jobs t n q) :
    ∃ j ∈ q, j.package_id = x.package_id := by
  unfold Queued.free_stale_jobs at h
  obtain ⟨j, hj, hje⟩ := List.mem_map.mp h
  refine ⟨j, hj, ?_⟩
  rw [← hje]
  split <;> rfl

lemma Package.get_id_exists_ok {i : Nat} {ps : List Package}
    (h : ∃ p ∈ ps, p.id = i) : ∃ pkg, Package.get_id i ps = .ok pkg := by
  obtain ⟨p, hp, hpi⟩ := h
  have hs : (ps.find? (fun x => x.id == i)).isSome :=
    List.find?_isSome.mpr ⟨p, hp, by simp [hpi]⟩
  obtain ⟨pkg, hf⟩ := Option.isSome_iff_exists.mp hs
  refine ⟨pkg, ?_⟩
  unfold Package.get_id
  rw [hf]

lemma Worker.update_mem {w w' : Worker} {st : DbState}
    (hmem : w ∈ st.workers) (hid : w'.id = w.id) :
    w' ∈ (Worker.update w' st).workers := by
  unfold Worker.update
  have h2 := List.mem_map_of_mem (fun x => if x.id = w'.id then w' else x) hmem
  simpa [hid] using h2

/-- C10: an authenticated pop request always updates the calling worker's
registry record, even when the queue has nothing to hand out: the persisted
row carries last-ping = now, the status is the working label when a job was
assigned, and none when Nothing was returned — and one of those two
outcomes occurs. -/
theorem C10_pop_queue_updates_worker (cfg : Config) (req : Request) (st : DbState)
    (now : Nat) (k : String) (w : Worker)
    (hauth : auth.worker cfg req = true)
    (hkey : req.workerKey = some k) (hpeer : req.peerAddr.isSome = true)
    (hw : Worker.get k st = some w)
    (hint : ∀ i ∈ st.queue, ∃ p ∈ st.packages, p.id = i.package_id) :
    ((pop_queue cfg req st now).1 = .okJob .Nothing ∨
      ∃ item, (pop_queue cfg req st now).1 = .okJob (.Rebuild item)) ∧
    ∃ w' ∈ ((pop_queue cfg req st now).2).workers,
      w'.id = w.id ∧ w'.last_ping = now ∧
      ((pop_queue cfg req st now).1 = .okJob .Nothing → w'.status = none) ∧
      (∀ item, (pop_queue cfg req st now).1 = .okJob (.Rebuild item) →
        w'.status = some ("working hard on " ++ item.package.name ++ " " ++
          item.package.version)) := by
  obtain ⟨ci, hci⟩ := Option.isSome_iff_exists.mp hpeer
  have hwmem : w ∈ st.workers := List.mem_of_find?_eq_some hw
  cases hold : oldestUnassigned (Queued.free_stale_jobs cfg.leaseTimeout now st.queue) with
  | none =>
    have hrun : pop_queue cfg req st now =
        (.okJob .Nothing,
         Worker.update { w with last_ping := now, status := none }
           { st with queue := Queued.free_stale_jobs cfg.leaseTimeout now st.queue }) := by
      simp only [pop_queue, get_worker_from_request, hauth, hkey, hci, hw,
        Queued.pop_next, hold, if_true]
    rw [hrun]
    refine ⟨Or.inl rfl, { w with last_ping := now, status := none }, ?_, rfl, rfl,
      fun _ => rfl, ?_⟩
    · exact Worker.update_mem hwmem rfl
    · intro item habs
      cases habs
  | some it0 =>
    obtain ⟨hm0, hu0, _⟩ := oldestUnassigned_some hold
    obtain ⟨j, hj, hjp⟩ := free_stale_jobs_package_id hm0
    obtain ⟨p0, hp0, hp0i⟩ := hint j hj
    obtain ⟨pkg, hpkg⟩ := Package.get_id_exists_ok ⟨p0, hp0, by rw [hp0i, hjp]⟩
    have hrun : pop_queue cfg req st now =
        (.okJob (.Rebuild
          { id := it0.id, package := pkg, version := it0.version, queued_at := it0.queued_at }),
         Worker.update
           { w with last_ping := now, status := some ("working hard on " ++ pkg.name ++ " " ++ pkg.version) }
           { st with queue := List.map (claimItem it0.id w.id now) (Queued.free_stale_jobs cfg.leaseTimeout now st.queue) }) := by
      simp only [pop_queue, get_worker_from_request, hauth, hkey, hci, hw,
        Queued.pop_next, hold, hpkg, if_true]
    rw [hrun]
    refine ⟨Or.inr ⟨_, rfl⟩,
      { w with last_ping := now, status := some ("working hard on " ++ pkg.name ++ " " ++ pkg.version) },
      ?_, rfl, rfl, ?_, ?_⟩
    · exact Worker.update_mem hwmem rfl
    · intro habs
      cases habs
    · intro item heq
      cases heq
      rfl

/-- Witness for C10 on an empty queue: worker 1 pops and its record is
still refreshed, with the status cleared. -/
theorem C10_pop_queue_updates_worker_witness :
    auth.worker cfgEx reqW1 = true ∧
    reqW1.workerKey = some "k1" ∧
    reqW1.peerAddr.isSome = true ∧
    Worker.get "k1" stEmptyQueue = some workerW1 ∧
    (∀ i ∈ stEmptyQueue.queue, ∃ p ∈ stEmptyQueue.packages, p.id = i.package_id) ∧
    (((pop_queue cfgEx reqW1 stEmptyQueue 10).1 = .okJob .Nothing ∨
      ∃ item, (pop_queue cfgEx reqW1 stEmptyQueue 10).1 = .okJob (.Rebuild item)) ∧
    ∃ w' ∈ ((pop_queue cfgEx reqW1 stEmptyQueue 10).2).workers,
      w'.id = workerW1.id ∧ w'.last_ping = 10 ∧
      ((pop_queue cfgEx reqW1 stEmptyQueue 10).1 = .okJob .Nothing → w'.status = none) ∧
      (∀ item, (pop_queue cfgEx reqW1 stEmptyQueue 10).1 = .okJob (.Rebuild item) →
        w'.status = some ("working hard on " ++ item.package.name ++ " " ++
          item.package.version))) :=
  ⟨by decide, rfl, rfl, rfl, by decide,
   C10_pop_queue_updates_worker cfgEx reqW1 stEmptyQueue 10 "k1" workerW1
     (by decide) rfl rfl rfl (by decide)⟩

lemma claimItem_id (t w n : Nat) (i : Queued) : (claimItem t w n i).id = i.id := by
  unfold claimItem
  split <;> rfl

lemma map_claim_ids (t w n : Nat) (q : List Queued) :
    (q.map (claimItem t w n)).map Queued.id = q.map Queued.id := by
  rw [List.map_map]
  exact List.map_congr_left (fun i _ => claimItem_id t w n i)

lemma countUnassigned_cons (x : Queued) (xs : List Queued) :
    countUnassigned (x :: xs) =
      countUnassigned xs + (if x.worker_id.isNone then 1 else 0) := by
  unfold countUnassigned
  rw [List.countP_cons]

lemma countUnassigned_map_claim {q : List Queued} {t : Nat} (w n : Nat)
    (hnd : (q.map Queued.id).Nodup) {i : Queued} (hi : i ∈ q)
    (hiu : i.worker_id = none) (hit : i.id = t) :
    countUnassigned (q.map (claimItem t w n)) + 1 = countUnassigned q := by
  induction q with
  | nil => cases hi
  | cons x xs ih =>
    rw [List.map_cons, List.nodup_cons] at hnd
    rw [List.map_cons, countUnassigned_cons, countUnassigned_cons]
    rcases List.mem_cons.mp hi with rfl | hixs
    · have hxs : xs.map (claimItem t w n) = xs := by
        have hfix : ∀ j ∈ xs, claimItem t w n j = j := by
          intro j hj
          unfold claimItem
          rw [if_neg]
          intro hjt
          have hmm : j.id ∈ xs.map Queued.id := List.mem_map_of_mem _ hj
          rw [hjt, ← hit] at hmm
          exact hnd.1 hmm
        calc xs.map (claimItem t w n) = xs.map id := List.map_congr_left hfix
          _ = xs := List.map_id xs
      rw [hxs]
      have hcl : claimItem t w n i = { i with worker_id := some w, last_ping := some n } := by
        unfold claimItem
        rw [if_pos hit]
      rw [hcl]
      simp [hiu]
    · have hxt : x.id ≠ t := by
        intro hxeq
        have hmm : i.id ∈ xs.map Queued.id := List.mem_map_of_mem _ hixs
        rw [hit, ← hxeq] at hmm
        exact hnd.1 hmm
      have hcl : claimItem t w n x = x := by
        unfold claimItem
        rw [if_neg hxt]
      rw [hcl]
      have := ih hnd.2 hixs
      omega

lemma popMany_aux (now : Nat) (ws : List Nat) :
    ∀ (q : List Queued) (acc : List Nat),
      (q.map Queued.id).Nodup →
      ws.length ≤ countUnassigned q →
      acc.Nodup →
      (∀ a ∈ acc, ∃ j ∈ q, j.id = a ∧ j.worker_id ≠ none) →
      (popMany now ws q).1.length = ws.length ∧
      (∀ r ∈ (popMany now ws q).1, r.isSome = true) ∧
      (acc ++ (popMany now ws q).1.filterMap (fun o => o.map Queued.id)).Nodup := by
  induction ws with
  | nil =>
    intro q acc _ _ haccnd _
    refine ⟨rfl, ?_, ?_⟩
    · intro r hr; cases hr
    · simpa [popMany] using haccnd
  | cons w ws ih =>
    intro q acc hnd hlen haccnd hacc
    have hpos : 0 < countUnassigned q := by
      simp only [List.length_cons] at hlen
      omega
    cases hold : oldestUnassigned q with
    | none =>
      exfalso
      have hall := (oldestUnassigned_eq_none_iff q).mp hold
      have hzero : countUnassigned q = 0 := by
        unfold countUnassigned
        rw [List.countP_eq_zero]
        intro a ha
        simpa [Option.isNone_iff_eq_none] using hall a ha
      omega
    | some it0 =>
      obtain ⟨hm0, hu0, _⟩ := oldestUnassigned_some hold
      have hstep : popMany now (w :: ws) q =
          ((some { it0 with worker_id := some w, last_ping := some now }) ::
            (popMany now ws (q.map (claimItem it0.id w now))).1,
           (popMany now ws (q.map (claimItem it0.id w now))).2) := by
        simp only [popMany, Queued.pop_next, hold]
      have hnd' : ((q.map (claimItem it0.id w now)).map Queued.id).Nodup := by
        rw [map_claim_ids]
        exact hnd
      have hcount := countUnassigned_map_claim w now hnd hm0 hu0 rfl
      have hlen' : ws.length ≤ countUnassigned (q.map (claimItem it0.id w now)) := by
        simp only [List.length_cons] at hlen
        omega
      have hnotin : it0.id ∉ acc := by
        intro habs
        obtain ⟨j, hjm, hjid, hjas⟩ := hacc it0.id habs
        have hji : j = it0 := List.inj_on_of_nodup_map hnd hjm hm0 hjid
        rw [hji] at hjas
        exact hjas hu0
      have haccnd' : (acc ++ [it0.id]).Nodup := by
        refine List.Nodup.append haccnd (List.nodup_singleton _) ?_
        intro a ha hmem
        rw [List.mem_singleton] at hmem
        rw [hmem] at ha
        exact hnotin ha
      have hacc' : ∀ a ∈ acc ++ [it0.id],
          ∃ j ∈ q.map (claimItem it0.id w now), j.id = a ∧ j.worker_id ≠ none := by
        intro a ha
        rcases List.mem_append.mp ha with ha | ha
        · obtain ⟨j, hjm, hjid, hjas⟩ := hacc a ha
          refine ⟨claimItem it0.id w now j, List.mem_map_of_mem _ hjm, ?_, ?_⟩
          · rw [claimItem_id]; exact hjid
          · unfold claimItem
            split
            · simp
            · exact hjas
        · rw [List.mem_singleton] at ha
          rw [ha]
          refine ⟨claimItem it0.id w now it0, List.mem_map_of_mem _ hm0, ?_, ?_⟩
          · rw [claimItem_id]
          · unfold claimItem
            rw [if_pos rfl]
            simp
      obtain ⟨hlen2, hsome2, hnd2⟩ :=
        ih (q.map (claimItem it0.id w now)) (acc ++ [it0.id]) hnd' hlen' haccnd' hacc'
      rw [hstep]
      refine ⟨?_, ?_, ?_⟩
      · simp [hlen2]
      · intro r hr
        rcases List.mem_cons.mp hr with rfl | hr
        · rfl
        · exact hsome2 r hr
      · have hfm : (some { it0 with worker_id := some w, last_ping := some now } ::
            (popMany now ws (q.map (claimItem it0.id w now))).1).filterMap
              (fun o => o.map Queued.id) =
            it0.id :: ((popMany now ws (q.map (claimItem it0.id w now))).1.filterMap
              (fun o => o.map Queued.id)) := by
          rw [List.filterMap_cons]
          rfl
        rw [hfm]
        simpa [List.append_assoc] using hnd2

/-- C2: `pop_next` returns Nothing on a queue with no unassigned item; when
it returns an item, that item is an oldest unassigned row now carrying
holder = the calling worker and ping = now, and the queue state records
exactly that claim; and any sequence of N `pop_next` calls (one per worker,
any interleaving of the atomic claims) against a queue with exactly N
unassigned items hands out N jobs with pairwise-distinct item ids — no item
goes to two callers. -/
theorem C2_pop_next_mutual_exclusion (w now : Nat) (q : List Queued) (ws : List Nat)
    (hids : (q.map Queued.id).Nodup) (hN : ws.length = countUnassigned q) :
    (countUnassigned q = 0 → Queued.pop_next w now q = (none, q)) ∧
    (∀ it q', Queued.pop_next w now q = (some it, q') →
      it.worker_id = some w ∧ it.last_ping = some now ∧
      (∃ i ∈ q, i.id = it.id ∧ i.worker_id = none ∧ i.queued_at = it.queued_at ∧
        ∀ j ∈ q, j.worker_id = none → i.queued_at ≤ j.queued_at) ∧
      q' = q.map (claimItem it.id w now)) ∧
    ((popMany now ws q).1.length = ws.length ∧
     (∀ r ∈ (popMany now ws q).1, r.isSome = true) ∧
     ((popMany now ws q).1.filterMap (fun o => o.map Queued.id)).Nodup) := by
  refine ⟨?_, ?_, ?_⟩
  · intro h0
    have hnone : oldestUnassigned q = none := by
      rw [oldestUnassigned_eq_none_iff]
      intro i hi hiu
      have : 0 < countUnassigned q := by
        unfold countUnassigned
        exact List.countP_pos_iff.mpr ⟨i, hi, by simp [hiu]⟩
      omega
    simp [Queued.pop_next, hnone]
  · intro it q' hpop
    unfold Queued.pop_next at hpop
    cases hold : oldestUnassigned q with
    | none =>
      rw [hold] at hpop
      cases hpop
    | some it0 =>
      rw [hold] at hpop
      obtain ⟨hm0, hu0, hmin0⟩ := oldestUnassigned_some hold
      injection hpop with h1 h2
      injection h1 with h1
      subst h1
      subst h2
      refine ⟨rfl, rfl, ⟨it0, hm0, rfl, hu0, rfl, hmin0⟩, rfl⟩
  · obtain ⟨h1, h2, h3⟩ :=
      popMany_aux now ws q [] hids (le_of_eq hN) List.nodup_nil
        (by intro a ha; cases ha)
    exact ⟨h1, h2, by simpa using h3⟩

/-- Witness for C2: two unassigned items, two workers popping in sequence;
both pops succeed with distinct item ids. -/
theorem C2_pop_next_mutual_exclusion_witness :
    (qTwo.map Queued.id).Nodup ∧
    [5, 6].length = countUnassigned qTwo ∧
    ((countUnassigned qTwo = 0 → Queued.pop_next 5 10 qTwo = (none, qTwo)) ∧
    (∀ it q', Queued.pop_next 5 10 qTwo = (some it, q') →
      it.worker_id = some 5 ∧ it.last_ping = some 10 ∧
      (∃ i ∈ qTwo, i.id = it.id ∧ i.worker_id = none ∧ i.queued_at = it.queued_at ∧
        ∀ j ∈ qTwo, j.worker_id = none → i.queued_at ≤ j.queued_at) ∧
      q' = qTwo.map (claimItem it.id 5 10)) ∧
    ((popMany 10 [5, 6] qTwo).1.length = [5, 6].length ∧
     (∀ r ∈ (popMany 10 [5, 6] qTwo).1, r.isSome = true) ∧
     ((popMany 10 [5, 6] qTwo).1.filterMap (fun o => o.map Queued.id)).Nodup)) :=
  ⟨by decide, by decide,
   C2_pop_next_mutual_exclusion 5 10 qTwo [5, 6] (by decide) (by decide)⟩
